import Mathlib

/-!
Shallow embedding of the oxi-memory-pool fixed-capacity object allocator.

The embedded code is the allocator / ownership-handle pair of
`src/include/MemOx/object_pool.hpp` (`ObjectPool<T>` and `PoolHandle<T>`),
together with the `src/MemoryPool.h` variant (`MemoryPool<T>` /
`MemoryPoolObject<T>`) where a claim depends on behavior specific to it.

Modelling conventions:
- An arena slot is identified by its index `0, 1, ...` in the arena
  (the slot with address `pool_memory_ + kSlotSize * idx`).
- The free list, threaded in `FreeSlot` nodes through unused slot storage in
  the C++ code, is modelled as the list of free slot indices in list order
  (`free_head_` is the head of the list).
- `used_count_` / `max_allocated_index_` are `Nat`s.
- The pooled type `T` is abstract: its constructor either succeeds or throws,
  which an emplace call receives as a boolean `ctorOk` parameter.
- Exceptions are modelled as explicit result constructors; error-callback
  invocations are returned as the list of codes the callback was called with.
-/

namespace MemOx

/-- Mutable metadata of one `ObjectPool<T>` / `MemoryPool<T>` instance:
`capacity_` (`m_count`), the free list threaded through unused slots
(`free_head_` / `m_free_head`), `used_count_` (`m_used`),
`max_allocated_index_` (`m_max_allocated`), and whether an error callback is
registered (`err_callback_` non-null under `OxiMemPool_ErrCallback`). -/
structure PoolState where
  capacity : Nat
  freeList : List Nat
  usedCount : Nat
  maxAllocated : Nat
  errCallback : Bool
deriving DecidableEq, Repr

/-- `ObjectPool::size()` (= `MemoryPool::Used()`): the live-object count. -/
def PoolState.size (s : PoolState) : Nat := s.usedCount

/-- `MemoryPool::Available()`: `m_count - m_used`. -/
def PoolState.available (s : PoolState) : Nat := s.capacity - s.usedCount

/-- `ObjectPool::allocate_no_lock` (object_pool.hpp:207-239): pop the free
list if non-empty; otherwise carve the next linear slot while
`max_allocated_index_ < capacity_`; otherwise return `nullptr` (`none`).
Returns the reserved slot (if any) and the updated pool state. -/
def allocate_no_lock (s : PoolState) : Option Nat × PoolState :=
  match s.freeList with
  | node :: rest => (some node, { s with freeList := rest })
  | [] =>
      if s.maxAllocated ≥ s.capacity then
        (none, s)
      else
        (some s.maxAllocated, { s with maxAllocated := s.maxAllocated + 1 })

/-- `ObjectPool::free_no_lock` (object_pool.hpp:243-253): push the slot onto
the head of the free list. -/
def free_no_lock (s : PoolState) (slot : Nat) : PoolState :=
  { s with freeList := slot :: s.freeList }

/-- `ObjectPool::destroy_object` (object_pool.hpp:262-276): run `~T`, then
return the slot to the free list and decrement `used_count_`. -/
def destroy_object (s : PoolState) (slot : Nat) : PoolState :=
  let s1 := free_no_lock s slot
  { s1 with usedCount := s1.usedCount - 1 }

/-- Outcome of one `ObjectPool::emplace` / `MemoryPool::Make` call. -/
inductive EmplaceResult where
  /-- A bound handle owning the object constructed in slot `slot`. -/
  | ok (slot : Nat)
  /-- An empty (default-constructed) handle was returned. -/
  | emptyHandle
  /-- `std::runtime_error("... exhausted")` propagated (code 1). -/
  | exhaustedError
  /-- The pooled type's own constructor exception propagated unchanged. -/
  | ctorError
deriving DecidableEq, Repr

/-- Result record of one `emplace` / `Make` call: the outcome, the pool state
after the call, and the codes the registered error callback was invoked
with during the call (empty when no callback ran). -/
structure EmplaceOut where
  result : EmplaceResult
  state : PoolState
  callbackCodes : List Nat
deriving DecidableEq, Repr

/-- `ObjectPool::emplace` (object_pool.hpp:352-393): reserve a slot via
`allocate_no_lock`; on exhaustion either invoke the error callback with code 1
and return an empty handle, or throw `"ObjectPool exhausted"`; otherwise run
`std::construct_at` (outcome given by `ctorOk`), on constructor failure return
the slot via `free_no_lock` and rethrow, on success increment `used_count_`
and return a bound handle. -/
def emplace (s : PoolState) (ctorOk : Bool) : EmplaceOut :=
  match allocate_no_lock s with
  | (none, s1) =>
      if s1.errCallback then
        { result := .emptyHandle, state := s1, callbackCodes := [1] }
      else
        { result := .exhaustedError, state := s1, callbackCodes := [] }
  | (some slot, s1) =>
      if ctorOk then
        { result := .ok slot,
          state := { s1 with usedCount := s1.usedCount + 1 },
          callbackCodes := [] }
      else
        { result := .ctorError, state := free_no_lock s1 slot, callbackCodes := [] }

/-- Outcome of `MemoryPool::Allocate_NoLock` (MemoryPool.h:293-320), which,
unlike `ObjectPool::allocate_no_lock`, itself calls `ReportError` on
exhaustion: that either throws (no callback) or invokes the callback and
falls through to `return nullptr`. -/
inductive AllocOutcome where
  /-- A slot was reserved. -/
  | slot (idx : Nat)
  /-- Exhausted, `ReportError` threw `std::runtime_error` (no callback). -/
  | exhaustedRaise
  /-- Exhausted, callback invoked with code 1, `nullptr` returned. -/
  | exhaustedNull
deriving DecidableEq, Repr

/-- `MemoryPool::Allocate_NoLock` (MemoryPool.h:293-320). -/
def MemoryPool.Allocate_NoLock (s : PoolState) : AllocOutcome × PoolState :=
  match s.freeList with
  | node :: rest => (.slot node, { s with freeList := rest })
  | [] =>
      if s.maxAllocated ≥ s.capacity then
        (if s.errCallback then .exhaustedNull else .exhaustedRaise, s)
      else
        (.slot s.maxAllocated, { s with maxAllocated := s.maxAllocated + 1 })

/-- `MemoryPool::Make`, thread-safe path (MemoryPool.h:358-386): under the
lock, allocate and pre-increment `m_used`; construct outside the lock; on
constructor failure re-acquire the lock, decrement `m_used`, free the slot
and rethrow. -/
def MemoryPool.Make (s : PoolState) (ctorOk : Bool) : EmplaceOut :=
  match MemoryPool.Allocate_NoLock s with
  | (.slot slot, s1) =>
      let s2 := { s1 with usedCount := s1.usedCount + 1 }
      if ctorOk then
        { result := .ok slot, state := s2, callbackCodes := [] }
      else
        { result := .ctorError,
          state := free_no_lock { s2 with usedCount := s2.usedCount - 1 } slot,
          callbackCodes := [] }
  | (.exhaustedNull, s1) =>
      { result := .emptyHandle, state := s1, callbackCodes := [1] }
  | (.exhaustedRaise, s1) =>
      { result := .exhaustedError, state := s1, callbackCodes := [] }

/-! ### Construction (claim C3)

`ObjectPool::ObjectPool(size_t, LogFunction)` (object_pool.hpp:318-324) calls
`report_error` for `capacity == 0` (code 0) and, inside
`initialize_pool_memory` (object_pool.hpp:295-315), for slot-size overflow
(code 2).  `err_callback_` can only be set through `set_error_callback` on an
already-constructed pool, so during construction it is always null and
`report_error` always throws. -/

/-- `SIZE_MAX`: `std::numeric_limits<size_t>::max()` on a 64-bit platform. -/
def SIZE_MAX : Nat := 2 ^ 64 - 1

/-- Result of running an `ObjectPool` constructor. -/
inductive ObjectPoolCtorResult where
  /-- Construction completed; the allocator exists with this initial state. -/
  | constructed (s : PoolState)
  /-- `report_error` threw `std::runtime_error` with this code; the
  allocator was never brought into existence. -/
  | error (code : Nat)
deriving DecidableEq, Repr

/-- `ObjectPool::initialize_pool_memory` (object_pool.hpp:295-315): the
overflow guard `capacity_ != 0 && kSlotSize > SIZE_MAX / capacity_` throws
code 2; otherwise `kSlotSize * capacity_` bytes (size_t arithmetic) are
allocated and returned here as the byte count. -/
def initialize_pool_memory (slotSize capacity : Nat) : Option Nat :=
  if capacity ≠ 0 ∧ slotSize > SIZE_MAX / capacity then
    none
  else
    some (slotSize * capacity % 2 ^ 64)

/-- `ObjectPool::ObjectPool(size_t capacity, LogFunction)`
(object_pool.hpp:318-324). -/
def ObjectPool.construct (slotSize capacity : Nat) : ObjectPoolCtorResult :=
  if capacity = 0 then
    .error 0
  else
    match initialize_pool_memory slotSize capacity with
    | none => .error 2
    | some _ =>
        .constructed
          { capacity := capacity, freeList := [], usedCount := 0,
            maxAllocated := 0, errCallback := false }

/-- Observable outcome of `MemoryPool::MemoryPool(size_t, ErrorCallback)`
(MemoryPool.h:499-513). -/
structure MemoryPoolCtorOut where
  /-- The constructor ran to completion: a `MemoryPool` object exists. -/
  constructed : Bool
  /-- `std::runtime_error` propagated out of the constructor. -/
  raised : Bool
  /-- Codes the registered `ErrorCallback` was invoked with. -/
  callbackCalls : List Nat
deriving DecidableEq, Repr

/-- `MemoryPool::MemoryPool(size_t count, ErrorCallback)`
(MemoryPool.h:499-513): for `count == 0`, `ReportError("...", 0)` either
throws (callback not set) or invokes the callback and returns, after which
the constructor continues into `Init()` and completes.  `Init`
(MemoryPool.h:472-482) performs no overflow check. -/
def MemoryPool.constructWithCallback (count : Nat) (callbackSet : Bool) :
    MemoryPoolCtorOut :=
  if count = 0 then
    if callbackSet then
      { constructed := true, raised := false, callbackCalls := [0] }
    else
      { constructed := false, raised := true, callbackCalls := [] }
  else
    { constructed := true, raised := false, callbackCalls := [] }

/-! ### Handles and operation traces

`PoolHandle<T>` (object_pool.hpp:88-159) holds `pool_` (a possibly-null
pointer to the one pool modelled here, so a `Bool`) and `object_` (a
possibly-null pointer to the owned object, as a slot index). -/

/-- The `pool_` / `object_` pair of a `PoolHandle<T>`. -/
structure PoolHandle where
  poolPtr : Bool
  objectPtr : Option Nat
deriving DecidableEq, Repr

/-- A default-constructed (empty) `PoolHandle{}`: both pointers null. -/
def PoolHandle.nullHandle : PoolHandle := ⟨false, none⟩

/-- `PoolHandle::operator bool()`: `object_ != nullptr`. -/
def PoolHandle.isBound (h : PoolHandle) : Bool := h.objectPtr.isSome

/-- Result of `PoolHandle::destroy_handle`. -/
structure DestroyOut where
  pool : PoolState
  handle : PoolHandle
  /-- Whether `std::destroy_at` ran (a pooled-object destructor executed). -/
  dtorRan : Bool
deriving DecidableEq, Repr

/-- `PoolHandle::destroy_handle` (object_pool.hpp:106-122): if either
`pool_` or `object_` is null, do nothing; otherwise call
`pool_->destroy_object(object_)` and null both pointers. -/
def destroy_handle (s : PoolState) (h : PoolHandle) : DestroyOut :=
  match h with
  | ⟨true, some slot⟩ => ⟨destroy_object s slot, PoolHandle.nullHandle, true⟩
  | h => ⟨s, h, false⟩

/-- One pool plus every handle object the client code holds (at its position
in declaration order), with running totals of completed `T` constructions
and `T` destructor invocations. -/
structure World where
  pool : PoolState
  handles : List PoolHandle
  ctorCount : Nat
  dtorCount : Nat
deriving DecidableEq, Repr

/-- Client operations on the pool and its handles. Indices name handle
objects; an index outside `handles` has no C++ counterpart and is a no-op. -/
inductive Op where
  /-- `pool.emplace(args...)`; `ctorOk` tells whether the `T` constructor
  succeeds. The returned handle (if any) is appended to `handles`. -/
  | emplaceOp (ctorOk : Bool)
  /-- `handles[i].reset()`. -/
  | resetOp (i : Nat)
  /-- `handles[i].~PoolHandle()`. -/
  | dtorOp (i : Nat)
  /-- `PoolHandle h(std::move(handles[i]))`; the new handle is appended. -/
  | moveCtorOp (i : Nat)
  /-- `handles[dst] = std::move(handles[src])`. -/
  | moveAssignOp (dst src : Nat)
deriving DecidableEq, Repr

/-- The handle object at position `i` (empty when out of range). -/
def getHandle (w : World) (i : Nat) : PoolHandle :=
  w.handles.getD i PoolHandle.nullHandle

/-- Run `destroy_handle` on the handle at position `i`. -/
def destroyHandleAt (w : World) (i : Nat) : World :=
  if i < w.handles.length then
    let r := destroy_handle w.pool (getHandle w i)
    { w with
        pool := r.pool,
        handles := w.handles.set i r.handle,
        dtorCount := w.dtorCount + (if r.dtorRan then 1 else 0) }
  else w

/-- Big-step semantics of one client operation, following
object_pool.hpp: `emplace` (352-393), `reset` / the handle destructor
(148-153, both call `destroy_handle`), the move constructor (128-133) and
move assignment with its `this != &other` self-assignment guard (135-146). -/
def stepOp (w : World) : Op → World
  | .emplaceOp ctorOk =>
      let out := emplace w.pool ctorOk
      match out.result with
      | .ok slot =>
          { w with
              pool := out.state,
              handles := w.handles ++ [⟨true, some slot⟩],
              ctorCount := w.ctorCount + 1 }
      | .emptyHandle =>
          { w with pool := out.state, handles := w.handles ++ [PoolHandle.nullHandle] }
      | _ => { w with pool := out.state }
  | .resetOp i => destroyHandleAt w i
  | .dtorOp i => destroyHandleAt w i
  | .moveCtorOp i =>
      if i < w.handles.length then
        { w with handles := (w.handles.set i PoolHandle.nullHandle) ++ [getHandle w i] }
      else w
  | .moveAssignOp dst src =>
      if dst = src then
        w
      else if dst < w.handles.length ∧ src < w.handles.length then
        let w1 := destroyHandleAt w dst
        { w1 with
            handles :=
              (w1.handles.set dst (getHandle w1 src)).set src PoolHandle.nullHandle }
      else w

/-- Run a whole operation sequence. -/
def run (w : World) (ops : List Op) : World := ops.foldl stepOp w

/-- State of a pool fresh out of a successful constructor run. -/
def freshPool (capacity : Nat) (eC : Bool) : PoolState :=
  { capacity := capacity, freeList := [], usedCount := 0,
    maxAllocated := 0, errCallback := eC }

/-- A fresh pool with no handles and zeroed construction counters. -/
def freshWorld (capacity : Nat) (eC : Bool) : World :=
  { pool := freshPool capacity eC, handles := [], ctorCount := 0, dtorCount := 0 }

/-- The slots currently owned by some handle (in handle-position order). -/
def boundSlots (hs : List PoolHandle) : List Nat := hs.filterMap (·.objectPtr)

/-- `emplace` with a succeeding `T` constructor, `n` times; returns the slots
handed out, in call order, stopping early if any call fails to bind. -/
def emplaceN : PoolState → Nat → List Nat × PoolState
  | s, 0 => ([], s)
  | s, n + 1 =>
      let out := emplace s true
      match out.result with
      | .ok slot =>
          let r := emplaceN out.state n
          (slot :: r.1, r.2)
      | _ => ([], out.state)

/-- Tear down handles bound to the given slots, in list order (each teardown
runs `destroy_object`, object_pool.hpp:262-276). -/
def freeAll (s : PoolState) (os : List Nat) : PoolState :=
  os.foldl destroy_object s

/-! ### Slot sizing (object_pool.hpp:193-200) -/

/-- `kRawSlotSize`: `sizeof(T) > sizeof(FreeSlot) ? sizeof(T) : sizeof(FreeSlot)`. -/
def kRawSlotSize (sizeofT sizeofNode : Nat) : Nat :=
  if sizeofT > sizeofNode then sizeofT else sizeofNode

/-- `kSlotAlign`: `alignof(T) > alignof(FreeSlot) ? alignof(T) : alignof(FreeSlot)`. -/
def kSlotAlign (alignofT alignofNode : Nat) : Nat :=
  if alignofT > alignofNode then alignofT else alignofNode

/-- `kSlotSize`: `(kRawSlotSize + kSlotAlign - 1) / kSlotAlign * kSlotAlign`. -/
def kSlotSize (sizeofT sizeofNode alignofT alignofNode : Nat) : Nat :=
  (kRawSlotSize sizeofT sizeofNode + kSlotAlign alignofT alignofNode - 1) /
      kSlotAlign alignofT alignofNode *
    kSlotAlign alignofT alignofNode

/-- Address of slot `idx`: `pool_memory_ + kSlotSize * idx`
(object_pool.hpp:228). `base` is the arena address returned by
`operator new(total_bytes, align_val_t{kSlotAlign})`. -/
def slotAddress (base slotSize idx : Nat) : Nat := base + slotSize * idx

/-! ### Pool destructor (claim C10) -/

/-- Observable actions of `ObjectPool::~ObjectPool` (object_pool.hpp:326-333). -/
structure PoolDtorOut where
  /-- Condition of the `#ifndef NDEBUG` assert: `used_count_ == 0`
  (`false` means the assertion fails in a debug build). -/
  assertLiveCheck : Bool
  /-- Slots whose pooled object's destructor the pool destructor runs.
  The destructor body never calls `std::destroy_at`, so this is `[]`. -/
  destroyedObjects : List Nat
  /-- `operator delete(pool_memory_, align_val_t{kSlotAlign})` executed. -/
  arenaFreed : Bool
deriving DecidableEq, Repr

/-- `ObjectPool::~ObjectPool` (object_pool.hpp:326-333): assert
`used_count_ == 0` (debug builds only), then release the arena buffer.
No slot is visited and no pooled-object destructor is invoked. -/
def objectPoolDtor (s : PoolState) : PoolDtorOut :=
  { assertLiveCheck := s.usedCount == 0,
    destroyedObjects := [],
    arenaFreed := true }

/-! ### Reachable-state invariant -/

/-- Bookkeeping invariant tying a pool's counters to the handles that exist:
carved slots are partitioned between the free list and bound handles,
`used_count_` counts the bound handles, the high-water mark is bounded by the
capacity, completed constructions split into destroyed and still-bound
objects, and every handle has `pool_` null exactly when `object_` is null. -/
structure WInv (w : World) : Prop where
  partitionLen :
    (boundSlots w.handles).length + w.pool.freeList.length = w.pool.maxAllocated
  usedEq : w.pool.usedCount = (boundSlots w.handles).length
  maxLe : w.pool.maxAllocated ≤ w.pool.capacity
  countEq : w.ctorCount = w.dtorCount + (boundSlots w.handles).length
  ptrConsistent : ∀ h ∈ w.handles, h.poolPtr = h.objectPtr.isSome

/-! ### Basic lemmas about the pool operations -/

theorem allocate_usedCount (s : PoolState) :
    (allocate_no_lock s).2.usedCount = s.usedCount := by
  rcases hfl : s.freeList with _ | ⟨f, rest⟩ <;> simp [allocate_no_lock, hfl]
  split <;> rfl

theorem mpAllocate_usedCount (s : PoolState) :
    (MemoryPool.Allocate_NoLock s).2.usedCount = s.usedCount := by
  rcases hfl : s.freeList with _ | ⟨f, rest⟩ <;>
    simp [MemoryPool.Allocate_NoLock, hfl]
  split <;> rfl

/-! ### Claim C1: constructor-failure rollback -/

/-- C1. If a slot was successfully reserved but the pooled type's constructor
fails, `emplace` (object_pool.hpp:352-393) and `Make` (MemoryPool.h:358-408)
push the reserved slot back onto the free list, re-signal the constructor
failure unchanged, leave `used_count` as it was before the call, and the next
successful emplace pops and reuses that same slot. -/
theorem C1_ctor_failure_rollback (s : PoolState) (slot : Nat) (s1 : PoolState)
    (halloc : allocate_no_lock s = (some slot, s1)) :
    ((emplace s false).result = .ctorError ∧
      (emplace s false).state.freeList = slot :: s1.freeList ∧
      (emplace s false).state.usedCount = s.usedCount ∧
      (emplace (emplace s false).state true).result = .ok slot) ∧
    (∀ t slot2 t1, MemoryPool.Allocate_NoLock t = (.slot slot2, t1) →
      (MemoryPool.Make t false).result = .ctorError ∧
      (MemoryPool.Make t false).state.freeList = slot2 :: t1.freeList ∧
      (MemoryPool.Make t false).state.usedCount = t.usedCount ∧
      (MemoryPool.Make (MemoryPool.Make t false).state true).result = .ok slot2) := by
  have hu : s1.usedCount = s.usedCount := by
    have h := allocate_usedCount s
    rw [halloc] at h
    exact h
  have hfail : emplace s false =
      { result := .ctorError, state := free_no_lock s1 slot, callbackCodes := [] } := by
    simp [emplace, halloc]
  constructor
  · refine ⟨?_, ?_, ?_, ?_⟩
    · rw [hfail]
    · rw [hfail]; rfl
    · rw [hfail]
      simpa [free_no_lock] using hu
    · rw [hfail]
      simp [emplace, allocate_no_lock, free_no_lock]
  · intro t slot2 t1 ht
    have hu2 : t1.usedCount = t.usedCount := by
      have h := mpAllocate_usedCount t
      rw [ht] at h
      exact h
    have hfail2 : MemoryPool.Make t false =
        { result := .ctorError,
          state := free_no_lock
            { t1 with usedCount := t1.usedCount + 1 - 1 } slot2,
          callbackCodes := [] } := by
      simp [MemoryPool.Make, ht]
    refine ⟨?_, ?_, ?_, ?_⟩
    · rw [hfail2]
    · rw [hfail2]; rfl
    · rw [hfail2]
      simpa [free_no_lock] using hu2
    · rw [hfail2]
      simp [MemoryPool.Make, MemoryPool.Allocate_NoLock, free_no_lock]

/-- Witness for C1, at a fresh capacity-1 pool where the reserved slot is 0. -/
theorem C1_ctor_failure_rollback_w :
    (emplace (freshPool 1 false) false).result = .ctorError ∧
    (emplace (emplace (freshPool 1 false) false).state true).result = .ok 0 ∧
    (MemoryPool.Make (freshPool 1 false) false).result = .ctorError ∧
    (MemoryPool.Make (MemoryPool.Make (freshPool 1 false) false).state true).result
      = .ok 0 := by
  have h := C1_ctor_failure_rollback (freshPool 1 false) 0
    { capacity := 1, freeList := [], usedCount := 0, maxAllocated := 1,
      errCallback := false } (by decide)
  have h2 := h.2 (freshPool 1 false) 0
    { capacity := 1, freeList := [], usedCount := 0, maxAllocated := 1,
      errCallback := false } (by decide)
  exact ⟨h.1.1, h.1.2.2.2, h2.1, h2.2.2.2⟩

/-! ### Claim C2: exhaustion behavior on a capacity-1 pool -/

/-- C2. On a capacity-1 pool, the first emplace returns a bound handle and
the second, without an intervening free, either throws
`"ObjectPool exhausted"` (no error callback) or invokes the callback exactly
once with the non-zero code 1 and returns an empty handle; `used()` stays 1
and the pool state is untouched, and after freeing the object an emplace
succeeds again (the pool stays fully usable). -/
theorem C2_capacity_one_exhaustion :
    (let w1 := stepOp (freshWorld 1 false) (.emplaceOp true)
     let out2 := emplace w1.pool true
     w1.handles = [⟨true, some 0⟩] ∧
     (getHandle w1 0).isBound = true ∧
     w1.pool.size = 1 ∧
     out2.result = .exhaustedError ∧
     out2.callbackCodes = [] ∧
     out2.state = w1.pool ∧
     out2.state.size = 1 ∧
     (emplace (destroy_object out2.state 0) true).result = .ok 0) ∧
    (let v1 := stepOp (freshWorld 1 true) (.emplaceOp true)
     let out2 := emplace v1.pool true
     v1.handles = [⟨true, some 0⟩] ∧
     (getHandle v1 0).isBound = true ∧
     v1.pool.size = 1 ∧
     out2.result = .emptyHandle ∧
     out2.callbackCodes = [1] ∧
     out2.callbackCodes.length = 1 ∧
     (∀ c ∈ out2.callbackCodes, c ≠ 0) ∧
     out2.state = v1.pool ∧
     out2.state.size = 1 ∧
     (emplace (destroy_object out2.state 0) true).result = .ok 0) := by
  decide

/-! ### Claim C3: configuration errors at construction -/

/-- Counterexample to C3 as stated: `MemoryPool(0, callback)` with a
registered callback routes the `count == 0` configuration error through the
callback (code 0) and then continues into `Init()`, so the allocator IS
brought into existence, contradicting "in every configuration-error case the
allocator is never brought into existence". -/
theorem C3_cex :
    (MemoryPool.constructWithCallback 0 true).callbackCalls = [0] ∧
    (MemoryPool.constructWithCallback 0 true).constructed = true ∧
    ¬ (MemoryPool.constructWithCallback 0 true).constructed = false := by
  decide

/-- C3 (amended). Construction with `capacity == 0`, or (for `ObjectPool`)
with `kSlotSize * capacity` overflowing `size_t`, reports a configuration
error with code 0 resp. 2.  For `ObjectPool` no callback can be registered at
construction time, so these propagate as raised failures and the allocator is
never brought into existence.  For `MemoryPool`'s callback constructor, with
no callback the failure is raised and the allocator is not constructed, but
with a registered callback the callback is invoked once (code 0) and
construction then completes. -/
theorem C3_config_error_amended :
    (∀ slotSize, ObjectPool.construct slotSize 0 = .error 0) ∧
    (∀ slotSize cap, cap ≠ 0 → SIZE_MAX / cap < slotSize →
      ObjectPool.construct slotSize cap = .error 2) ∧
    (∀ slotSize cap s, ObjectPool.construct slotSize cap = .constructed s →
      cap ≠ 0 ∧ slotSize ≤ SIZE_MAX / cap ∧ s = freshPool cap false) ∧
    (MemoryPool.constructWithCallback 0 false).raised = true ∧
    (MemoryPool.constructWithCallback 0 false).constructed = false ∧
    (MemoryPool.constructWithCallback 0 true).constructed = true ∧
    (MemoryPool.constructWithCallback 0 true).callbackCalls = [0] := by
  refine ⟨?_, ?_, ?_, by decide, by decide, by decide, by decide⟩
  · intro slotSize
    simp [ObjectPool.construct]
  · intro slotSize cap h0 hov
    unfold ObjectPool.construct initialize_pool_memory
    rw [if_neg h0, if_pos ⟨h0, hov⟩]
  · intro slotSize cap s h
    by_cases h0 : cap = 0
    · subst h0
      simp [ObjectPool.construct] at h
    · by_cases hg : SIZE_MAX / cap < slotSize
      · have h2 : ObjectPool.construct slotSize cap = .error 2 := by
          unfold ObjectPool.construct initialize_pool_memory
          rw [if_neg h0, if_pos ⟨h0, hg⟩]
        rw [h2] at h
        cases h
      · refine ⟨h0, by omega, ?_⟩
        have h3 : ObjectPool.construct slotSize cap
            = .constructed (freshPool cap false) := by
          unfold ObjectPool.construct initialize_pool_memory
          rw [if_neg h0, if_neg (fun hh => hg hh.2)]
          rfl
        rw [h3] at h
        cases h
        rfl

/-- Witness for C3 (amended), at slot size 8: capacity 0 raises code 0, an
overflowing capacity raises code 2, capacity 3 constructs a fresh pool. -/
theorem C3_config_error_amended_w :
    ObjectPool.construct 8 0 = .error 0 ∧
    ObjectPool.construct (2 ^ 64) 2 = .error 2 ∧
    (∀ s, ObjectPool.construct 8 3 = .constructed s → s = freshPool 3 false) := by
  refine ⟨C3_config_error_amended.1 8, ?_, ?_⟩
  · exact C3_config_error_amended.2.1 (2 ^ 64) 2 (by decide) (by decide)
  · intro s h
    exact (C3_config_error_amended.2.2.1 8 3 s h).2.2

/-! ### Claim C5: LIFO reuse of freed slots -/

theorem freeAll_freeList (os : List Nat) :
    ∀ s, (freeAll s os).freeList = os.reverse ++ s.freeList := by
  induction os with
  | nil => intro s; simp [freeAll]
  | cons o os ih =>
      intro s
      have h1 : freeAll s (o :: os) = freeAll (destroy_object s o) os := rfl
      rw [h1, ih]
      simp [destroy_object, free_no_lock]

theorem emplaceN_pops (pre : List Nat) :
    ∀ (rest : List Nat) (s : PoolState),
      s.freeList = pre ++ rest → (emplaceN s pre.length).1 = pre := by
  induction pre with
  | nil => intro rest s _; simp [emplaceN]
  | cons p ps ih =>
      intro rest s hs
      have hem : emplace s true =
          { result := .ok p,
            state := { s with freeList := ps ++ rest, usedCount := s.usedCount + 1 },
            callbackCodes := [] } := by
        simp [emplace, allocate_no_lock, hs]
      simp only [List.length_cons, emplaceN, hem]
      simpa using ih rest _ (by simp)

theorem emplaceN_carve :
    ∀ (k : Nat) (s : PoolState), s.freeList = [] →
      s.maxAllocated + k ≤ s.capacity →
      (emplaceN s k).1 = List.range' s.maxAllocated k ∧
        (emplaceN s k).2.freeList = [] := by
  intro k
  induction k with
  | zero => intro s h1 _; simpa [emplaceN, List.range'] using h1
  | succ n ih =>
      intro s h1 h2
      have hem : emplace s true =
          { result := .ok s.maxAllocated,
            state := { s with maxAllocated := s.maxAllocated + 1,
                              usedCount := s.usedCount + 1 },
            callbackCodes := [] } := by
        unfold emplace allocate_no_lock
        rw [h1]
        rw [if_neg (by omega)]
        simp
      obtain ⟨ha, hb⟩ := ih { s with maxAllocated := s.maxAllocated + 1,
                                     usedCount := s.usedCount + 1 }
        (by simpa using h1) (by simp; omega)
      constructor
      · simp only [emplaceN, hem]
        rw [List.range'_succ]
        simpa using ha
      · simp only [emplaceN, hem]
        simpa using hb

/-- C5. Slot reservation is LIFO: `allocate_no_lock`
(object_pool.hpp:207-239) pops the free-list head when the list is
non-empty and carves linearly only when it is empty and
`max_allocated < capacity`; consequently, on a fresh capacity-`N` pool,
emplacing `N` objects yields slots `0..N-1`, and after freeing them in any
order `os = o1, ..., oN` (object_pool.hpp:243-253), emplacing `N` new
objects yields the slots in order `oN, ..., o1`. -/
theorem C5_lifo_reuse (N : Nat) (os : List Nat)
    (_hos : os.Perm (emplaceN (freshPool N false) N).1) :
    (∀ (s : PoolState) (f : Nat) (r : List Nat), s.freeList = f :: r →
      allocate_no_lock s = (some f, { s with freeList := r })) ∧
    (∀ s : PoolState, s.freeList = [] → s.maxAllocated < s.capacity →
      allocate_no_lock s =
        (some s.maxAllocated, { s with maxAllocated := s.maxAllocated + 1 })) ∧
    (emplaceN (freshPool N false) N).1 = List.range N ∧
    (emplaceN (freeAll (emplaceN (freshPool N false) N).2 os) os.length).1
      = os.reverse := by
  have hcarve := emplaceN_carve N (freshPool N false) rfl (by simp [freshPool])
  refine ⟨?_, ?_, ?_, ?_⟩
  · intro s f r hs
    simp [allocate_no_lock, hs]
  · intro s h1 h2
    unfold allocate_no_lock
    rw [h1]
    rw [if_neg (by omega)]
  · rw [hcarve.1]
    simp [freshPool, List.range_eq_range']
  · have hfl : (freeAll (emplaceN (freshPool N false) N).2 os).freeList
        = os.reverse ++ [] := by
      rw [freeAll_freeList, hcarve.2]
    rw [← List.length_reverse os]
    exact emplaceN_pops os.reverse [] _ hfl

/-- Witness for C5, at N = 3 and freeing order 0, 2, 1: the re-emplaced
slots come back in order 1, 2, 0. -/
theorem C5_lifo_reuse_w :
    (emplaceN (freshPool 3 false) 3).1 = [0, 1, 2] ∧
    (emplaceN (freeAll (emplaceN (freshPool 3 false) 3).2 [0, 2, 1]) 3).1
      = [1, 2, 0] := by
  have h := C5_lifo_reuse 3 [0, 2, 1] (by decide)
  exact ⟨by simpa using h.2.2.1, by simpa using h.2.2.2⟩

/-! ### Claim C9: slot sizing and alignment -/

/-- C9. The slot layout (object_pool.hpp:195-200) satisfies
`kRawSlotSize = max(sizeof(T), sizeof(FreeSlot))`,
`kSlotAlign = max(alignof(T), alignof(FreeSlot))`, and
`kSlotSize = round_up(kRawSlotSize, kSlotAlign)` (a multiple of `kSlotAlign`
no smaller than `kRawSlotSize`); since alignments are powers of two and the
arena base is `kSlotAlign`-aligned, every slot address
`pool_memory_ + kSlotSize * idx` returned by emplace is a multiple of the
pooled type's alignment. -/
theorem C9_slot_layout (sT sN aT aN i j base idx : Nat)
    (hT : aT = 2 ^ i) (hN : aN = 2 ^ j)
    (hbase : base % kSlotAlign aT aN = 0) :
    kRawSlotSize sT sN = max sT sN ∧
    kSlotAlign aT aN = max aT aN ∧
    kSlotSize sT sN aT aN % kSlotAlign aT aN = 0 ∧
    kRawSlotSize sT sN ≤ kSlotSize sT sN aT aN ∧
    slotAddress base (kSlotSize sT sN aT aN) idx % aT = 0 := by
  have hmaxR : kRawSlotSize sT sN = max sT sN := by
    unfold kRawSlotSize
    rw [Nat.max_def]
    split <;> split <;> omega
  have hmaxA : kSlotAlign aT aN = max aT aN := by
    unfold kSlotAlign
    rw [Nat.max_def]
    split <;> split <;> omega
  have hATpos : 0 < aT := by
    rw [hT]; exact Nat.two_pow_pos i
  have haPos : 0 < kSlotAlign aT aN := by
    rw [hmaxA]
    exact lt_of_lt_of_le hATpos (le_max_left aT aN)
  have hdvdAT : aT ∣ kSlotAlign aT aN := by
    rw [hmaxA]
    rcases Nat.le_total aT aN with hle | hle
    · rw [Nat.max_eq_right hle, hT, hN]
      have hij : i ≤ j := by
        rw [hT, hN] at hle
        exact (Nat.pow_le_pow_iff_right (by omega)).mp hle
      exact Nat.pow_dvd_pow 2 hij
    · rw [Nat.max_eq_left hle]
  have hdvdSlot : kSlotAlign aT aN ∣ kSlotSize sT sN aT aN := by
    unfold kSlotSize
    exact dvd_mul_left _ _
  have hmod : kSlotSize sT sN aT aN % kSlotAlign aT aN = 0 :=
    Nat.mod_eq_zero_of_dvd hdvdSlot
  have hle2 : kRawSlotSize sT sN ≤ kSlotSize sT sN aT aN := by
    unfold kSlotSize
    have key := Nat.div_add_mod (kRawSlotSize sT sN + kSlotAlign aT aN - 1)
      (kSlotAlign aT aN)
    have hmlt := Nat.mod_lt (kRawSlotSize sT sN + kSlotAlign aT aN - 1) haPos
    rw [Nat.mul_comm]
    obtain ⟨X, hX⟩ : ∃ X, kSlotAlign aT aN *
        ((kRawSlotSize sT sN + kSlotAlign aT aN - 1) / kSlotAlign aT aN) = X :=
      ⟨_, rfl⟩
    rw [hX] at key ⊢
    omega
  have haddr : slotAddress base (kSlotSize sT sN aT aN) idx % aT = 0 := by
    have h2 : kSlotAlign aT aN ∣ base := Nat.dvd_of_mod_eq_zero hbase
    have h3 : aT ∣ kSlotSize sT sN aT aN * idx :=
      Dvd.dvd.mul_right (dvd_trans hdvdAT hdvdSlot) idx
    have h4 : aT ∣ slotAddress base (kSlotSize sT sN aT aN) idx := by
      unfold slotAddress
      exact Nat.dvd_add (dvd_trans hdvdAT h2) h3
    exact Nat.mod_eq_zero_of_dvd h4
  exact ⟨hmaxR, hmaxA, hmod, hle2, haddr⟩

/-- Witness for C9: sizeof(T) = 12, sizeof(FreeSlot) = 8, alignof(T) = 4,
alignof(FreeSlot) = 8, arena base 16, slot index 3. -/
theorem C9_slot_layout_w :
    kSlotSize 12 8 4 8 % kSlotAlign 4 8 = 0 ∧
    kRawSlotSize 12 8 ≤ kSlotSize 12 8 4 8 ∧
    slotAddress 16 (kSlotSize 12 8 4 8) 3 % 4 = 0 := by
  have h := C9_slot_layout 12 8 4 8 2 3 16 3 (by decide) (by decide) (by decide)
  exact ⟨h.2.2.1, h.2.2.2.1, h.2.2.2.2⟩

/-! ### List helpers for the handle array -/

theorem boundSlots_append (l1 l2 : List PoolHandle) :
    boundSlots (l1 ++ l2) = boundSlots l1 ++ boundSlots l2 := by
  simp [boundSlots]

theorem boundSlots_cons (h : PoolHandle) (l : List PoolHandle) :
    boundSlots (h :: l) = h.objectPtr.toList ++ boundSlots l := by
  cases hh : h.objectPtr <;> simp [boundSlots, hh]

theorem boundSlots_singleton (x : PoolHandle) :
    boundSlots [x] = x.objectPtr.toList := by
  cases hx : x.objectPtr <;> simp [boundSlots, hx]

/-- Split a list at a valid index, exposing the element there and the effect
of `List.set` at that index. -/
theorem list_split_at {α : Type} (d : α) :
    ∀ (l : List α) (i : Nat), i < l.length →
      ∃ A x B, l = A ++ x :: B ∧ A.length = i ∧
        (∀ v, l.set i v = A ++ v :: B) ∧ l.getD i d = x := by
  intro l
  induction l with
  | nil => intro i hi; simp at hi
  | cons a t ih =>
      intro i hi
      cases i with
      | zero => exact ⟨[], a, t, rfl, rfl, fun v => rfl, rfl⟩
      | succ n =>
          obtain ⟨A, x, B, h1, h2, h3, h4⟩ := ih n (by simpa using hi)
          refine ⟨a :: A, x, B, by simp [h1], by simp [h2], ?_, by simpa using h4⟩
          intro v
          simp [h3 v]

/-- Exchanging the middle element changes the bound-slot count by the
difference of the two elements' contributions. -/
theorem boundSlots_mid_len (A B : List PoolHandle) (v w : PoolHandle) :
    (boundSlots (A ++ v :: B)).length + w.objectPtr.toList.length
      = (boundSlots (A ++ w :: B)).length + v.objectPtr.toList.length := by
  simp only [boundSlots_append, boundSlots_cons, List.length_append]
  omega

/-! ### Preservation of the invariant -/

theorem winv_fresh (N : Nat) (eC : Bool) : WInv (freshWorld N eC) := by
  refine ⟨?_, ?_, ?_, ?_, ?_⟩ <;> simp [freshWorld, freshPool, boundSlots]

theorem ptr_append_ok (l : List PoolHandle)
    (h0 : ∀ h ∈ l, h.poolPtr = h.objectPtr.isSome)
    (x : PoolHandle) (hx : x.poolPtr = x.objectPtr.isSome) :
    ∀ h ∈ l ++ [x], h.poolPtr = h.objectPtr.isSome := by
  intro h hm
  rcases List.mem_append.mp hm with hm | hm
  · exact h0 h hm
  · rcases List.mem_singleton.mp hm with rfl
    exact hx

/-- Build the invariant for a world given in fully literal form. -/
theorem WInv.of_fields {cap : Nat} {fl : List Nat} {used maxa : Nat} {ec : Bool}
    {hs : List PoolHandle} {cc dc : Nat}
    (h1 : (boundSlots hs).length + fl.length = maxa)
    (h2 : used = (boundSlots hs).length)
    (h3 : maxa ≤ cap)
    (h4 : cc = dc + (boundSlots hs).length)
    (h5 : ∀ h ∈ hs, h.poolPtr = h.objectPtr.isSome) :
    WInv ⟨⟨cap, fl, used, maxa, ec⟩, hs, cc, dc⟩ :=
  ⟨h1, h2, h3, h4, h5⟩

theorem winv_emplace :
    ∀ (w : World) (c : Bool), WInv w → WInv (stepOp w (.emplaceOp c)) := by
  rintro ⟨⟨cap, fl, used, maxa, ec⟩, hs, cc, dc⟩ c ⟨hpart, hused, hmax, hcount, hptr⟩
  simp only at hpart hused hmax hcount hptr
  rcases fl with _ | ⟨f, rest⟩
  · simp only [List.length_nil] at hpart
    rcases Nat.lt_or_ge maxa cap with hlt | hge
    · -- linear carve
      have halloc :
          allocate_no_lock ⟨cap, [], used, maxa, ec⟩ =
            (some maxa, ⟨cap, [], used, maxa + 1, ec⟩) := by
        unfold allocate_no_lock
        simp only
        rw [if_neg (by omega)]
      cases c
      · -- constructor fails: slot pushed back, no handle created
        have hstep : stepOp ⟨⟨cap, [], used, maxa, ec⟩, hs, cc, dc⟩ (.emplaceOp false)
            = ⟨⟨cap, [maxa], used, maxa + 1, ec⟩, hs, cc, dc⟩ := by
          simp [stepOp, emplace, halloc, free_no_lock]
        rw [hstep]
        exact WInv.of_fields (by simp only [List.length_cons, List.length_nil]; omega)
          hused (by omega) hcount hptr
      · -- constructor succeeds: bound handle appended
        have hstep : stepOp ⟨⟨cap, [], used, maxa, ec⟩, hs, cc, dc⟩ (.emplaceOp true)
            = ⟨⟨cap, [], used + 1, maxa + 1, ec⟩,
               hs ++ [⟨true, some maxa⟩], cc + 1, dc⟩ := by
          simp [stepOp, emplace, halloc]
        rw [hstep]
        have hb : boundSlots (hs ++ [⟨true, some maxa⟩])
            = boundSlots hs ++ [maxa] := by
          rw [boundSlots_append]
          rfl
        refine WInv.of_fields ?_ ?_ (by omega) ?_
          (ptr_append_ok hs hptr ⟨true, some maxa⟩ rfl)
        · simp only [hb, List.length_append, List.length_cons, List.length_nil]
          omega
        · simp only [hb, List.length_append, List.length_cons, List.length_nil]
          omega
        · simp only [hb, List.length_append, List.length_cons, List.length_nil]
          omega
    · -- exhausted
      have halloc :
          allocate_no_lock ⟨cap, [], used, maxa, ec⟩ =
            (none, ⟨cap, [], used, maxa, ec⟩) := by
        unfold allocate_no_lock
        simp only
        rw [if_pos (by omega)]
      rcases ec
      · -- no callback: report_error throws, state untouched
        have hstep : stepOp ⟨⟨cap, [], used, maxa, false⟩, hs, cc, dc⟩ (.emplaceOp c)
            = ⟨⟨cap, [], used, maxa, false⟩, hs, cc, dc⟩ := by
          simp [stepOp, emplace, halloc]
        rw [hstep]
        exact ⟨hpart, hused, hmax, hcount, hptr⟩
      · -- callback: empty handle appended, state untouched
        have hstep : stepOp ⟨⟨cap, [], used, maxa, true⟩, hs, cc, dc⟩ (.emplaceOp c)
            = ⟨⟨cap, [], used, maxa, true⟩, hs ++ [PoolHandle.nullHandle], cc, dc⟩ := by
          simp [stepOp, emplace, halloc]
        rw [hstep]
        have hb : boundSlots (hs ++ [PoolHandle.nullHandle]) = boundSlots hs := by
          rw [boundSlots_append]
          simp [boundSlots, PoolHandle.nullHandle]
        exact ⟨by rw [hb]; exact hpart, by rw [hb]; exact hused, hmax,
               by rw [hb]; exact hcount,
               ptr_append_ok hs hptr PoolHandle.nullHandle rfl⟩
  · -- free-list reuse
    have hpart2 : (boundSlots hs).length + (rest.length + 1) = maxa := by
      simp only [List.length_cons] at hpart
      omega
    have halloc :
        allocate_no_lock ⟨cap, f :: rest, used, maxa, ec⟩ =
          (some f, ⟨cap, rest, used, maxa, ec⟩) := by
      simp [allocate_no_lock]
    cases c
    · -- constructor fails: slot pushed back
      have hstep : stepOp ⟨⟨cap, f :: rest, used, maxa, ec⟩, hs, cc, dc⟩
            (.emplaceOp false)
          = ⟨⟨cap, f :: rest, used, maxa, ec⟩, hs, cc, dc⟩ := by
        simp [stepOp, emplace, halloc, free_no_lock]
      rw [hstep]
      exact ⟨hpart, hused, hmax, hcount, hptr⟩
    · -- constructor succeeds: bound handle appended
      have hstep : stepOp ⟨⟨cap, f :: rest, used, maxa, ec⟩, hs, cc, dc⟩
            (.emplaceOp true)
          = ⟨⟨cap, rest, used + 1, maxa, ec⟩,
             hs ++ [⟨true, some f⟩], cc + 1, dc⟩ := by
        simp [stepOp, emplace, halloc]
      rw [hstep]
      have hb : boundSlots (hs ++ [⟨true, some f⟩]) = boundSlots hs ++ [f] := by
        rw [boundSlots_append]
        rfl
      refine WInv.of_fields ?_ ?_ hmax ?_ (ptr_append_ok hs hptr ⟨true, some f⟩ rfl)
      · simp only [hb, List.length_append, List.length_cons, List.length_nil]
        omega
      · simp only [hb, List.length_append, List.length_cons, List.length_nil]
        omega
      · simp only [hb, List.length_append, List.length_cons, List.length_nil]
        omega

theorem list_getD_set_self {α : Type} (d : α) :
    ∀ (l : List α) (i : Nat) (v : α), i < l.length → (l.set i v).getD i d = v := by
  intro l
  induction l with
  | nil => intro i v hi; simp at hi
  | cons a t ih =>
      intro i v hi
      cases i with
      | zero => rfl
      | succ n =>
          simp only [List.set_cons_succ, List.getD_cons_succ]
          exact ih n v (by simpa using hi)

theorem list_getD_set_ne {α : Type} (d : α) :
    ∀ (l : List α) (i j : Nat) (v : α), i ≠ j →
      (l.set i v).getD j d = l.getD j d := by
  intro l
  induction l with
  | nil => intro i j v _; rfl
  | cons a t ih =>
      intro i j v hne
      cases i with
      | zero =>
          cases j with
          | zero => exact absurd rfl hne
          | succ m => rfl
      | succ n =>
          cases j with
          | zero => rfl
          | succ m =>
              simp only [List.set_cons_succ, List.getD_cons_succ]
              exact ih n m v (by omega)

theorem ptr_mid_ok (A B : List PoolHandle) (x v : PoolHandle)
    (h0 : ∀ h ∈ A ++ x :: B, h.poolPtr = h.objectPtr.isSome)
    (hv : v.poolPtr = v.objectPtr.isSome) :
    ∀ h ∈ A ++ v :: B, h.poolPtr = h.objectPtr.isSome := by
  intro h hm
  rcases List.mem_append.mp hm with hm | hm
  · exact h0 h (List.mem_append_left _ hm)
  · rcases List.mem_cons.mp hm with rfl | hm
    · exact hv
    · exact h0 h (List.mem_append_right _ (List.mem_cons_of_mem _ hm))

theorem winv_destroyAt :
    ∀ (w : World) (i : Nat), WInv w → WInv (destroyHandleAt w i) := by
  rintro ⟨⟨cap, fl, used, maxa, ec⟩, hs, cc, dc⟩ i ⟨hpart, hused, hmax, hcount, hptr⟩
  simp only at hpart hused hmax hcount hptr
  rcases Nat.lt_or_ge i hs.length with hi | hi
  · obtain ⟨A, x, B, hd, _, hset, hget⟩ := list_split_at PoolHandle.nullHandle hs i hi
    have hxmem : x ∈ hs := by
      rw [hd]
      exact List.mem_append_right A (List.mem_cons_self x B)
    have hxc := hptr x hxmem
    rcases x with ⟨xp, xo⟩
    rcases xo with _ | slot
    · -- empty handle: destroy_handle is a no-op
      have hxp : xp = false := by simpa using hxc
      subst hxp
      have hh : hs.set i (⟨false, none⟩ : PoolHandle) = hs := by
        rw [hset]
        exact hd.symm
      have hstep : destroyHandleAt ⟨⟨cap, fl, used, maxa, ec⟩, hs, cc, dc⟩ i
          = ⟨⟨cap, fl, used, maxa, ec⟩, hs, cc, dc⟩ := by
        unfold destroyHandleAt
        rw [if_pos hi]
        simp only [getHandle]
        simp only [hget]
        simp [destroy_handle, hh]
      rw [hstep]
      exact ⟨hpart, hused, hmax, hcount, hptr⟩
    · -- bound handle: the object is destroyed and the slot freed
      have hxp : xp = true := by simpa using hxc
      subst hxp
      have hstep : destroyHandleAt ⟨⟨cap, fl, used, maxa, ec⟩, hs, cc, dc⟩ i
          = ⟨⟨cap, slot :: fl, used - 1, maxa, ec⟩,
             A ++ PoolHandle.nullHandle :: B, cc, dc + 1⟩ := by
        unfold destroyHandleAt
        rw [if_pos hi]
        simp only [getHandle]
        simp only [hget]
        simp only [destroy_handle, destroy_object, free_no_lock]
        rw [hset]
        rfl
      rw [hstep]
      have hbOld : (boundSlots hs).length
          = (boundSlots A).length + 1 + (boundSlots B).length := by
        rw [hd]
        simp [boundSlots_append, boundSlots_cons]
        omega
      have hbNew : (boundSlots (A ++ PoolHandle.nullHandle :: B)).length
          = (boundSlots A).length + (boundSlots B).length := by
        simp [boundSlots_append, boundSlots_cons, PoolHandle.nullHandle]
      refine WInv.of_fields ?_ ?_ hmax ?_
        (ptr_mid_ok A B ⟨true, some slot⟩ PoolHandle.nullHandle (hd ▸ hptr) rfl)
      · simp only [hbNew, List.length_cons]
        omega
      · simp only [hbNew]
        omega
      · simp only [hbNew]
        omega
  · have hstep : destroyHandleAt ⟨⟨cap, fl, used, maxa, ec⟩, hs, cc, dc⟩ i
        = ⟨⟨cap, fl, used, maxa, ec⟩, hs, cc, dc⟩ := by
      unfold destroyHandleAt
      rw [if_neg (by simpa using Nat.not_lt.mpr hi)]
    rw [hstep]
    exact ⟨hpart, hused, hmax, hcount, hptr⟩

theorem winv_moveCtor :
    ∀ (w : World) (i : Nat), WInv w → WInv (stepOp w (.moveCtorOp i)) := by
  rintro ⟨⟨cap, fl, used, maxa, ec⟩, hs, cc, dc⟩ i ⟨hpart, hused, hmax, hcount, hptr⟩
  simp only at hpart hused hmax hcount hptr
  rcases Nat.lt_or_ge i hs.length with hi | hi
  · obtain ⟨A, x, B, hd, _, hset, hget⟩ := list_split_at PoolHandle.nullHandle hs i hi
    have hxmem : x ∈ hs := by
      rw [hd]
      exact List.mem_append_right A (List.mem_cons_self x B)
    have hstep : stepOp ⟨⟨cap, fl, used, maxa, ec⟩, hs, cc, dc⟩ (.moveCtorOp i)
        = ⟨⟨cap, fl, used, maxa, ec⟩,
           (A ++ PoolHandle.nullHandle :: B) ++ [x], cc, dc⟩ := by
      simp only [stepOp]
      rw [if_pos hi]
      simp only [getHandle]
      simp only [hget]
      rw [hset]
    rw [hstep]
    have hbOld : (boundSlots hs).length
        = (boundSlots A).length + x.objectPtr.toList.length
            + (boundSlots B).length := by
      rw [hd]
      simp [boundSlots_append, boundSlots_cons]
      omega
    have hbNew : (boundSlots ((A ++ PoolHandle.nullHandle :: B) ++ [x])).length
        = (boundSlots A).length + (boundSlots B).length
            + x.objectPtr.toList.length := by
      have h0 : boundSlots ((A ++ PoolHandle.nullHandle :: B) ++ [x])
          = (boundSlots A ++ boundSlots B) ++ x.objectPtr.toList := by
        rw [boundSlots_append, boundSlots_append, boundSlots_cons,
          boundSlots_singleton]
        simp [PoolHandle.nullHandle]
      rw [h0]
      simp only [List.length_append]
    refine WInv.of_fields ?_ ?_ hmax ?_
      (ptr_append_ok (A ++ PoolHandle.nullHandle :: B)
        (ptr_mid_ok A B x PoolHandle.nullHandle (hd ▸ hptr) rfl)
        x (hptr x hxmem))
    · simp only [hbNew]
      omega
    · simp only [hbNew]
      omega
    · simp only [hbNew]
      omega
  · have hstep : stepOp ⟨⟨cap, fl, used, maxa, ec⟩, hs, cc, dc⟩ (.moveCtorOp i)
        = ⟨⟨cap, fl, used, maxa, ec⟩, hs, cc, dc⟩ := by
      simp only [stepOp]
      rw [if_neg (by simpa using Nat.not_lt.mpr hi)]
    rw [hstep]
    exact ⟨hpart, hused, hmax, hcount, hptr⟩

theorem winv_transfer (w : World) (dst src : Nat) (hne : dst ≠ src)
    (hdst : dst < w.handles.length) (hsrc : src < w.handles.length)
    (hempty : (w.handles.getD dst PoolHandle.nullHandle).objectPtr = none)
    (hw : WInv w) :
    WInv { w with handles :=
      (w.handles.set dst (getHandle w src)).set src PoolHandle.nullHandle } := by
  obtain ⟨hpart, hused, hmax, hcount, hptr⟩ := hw
  obtain ⟨C, y, D, hdC, _, hsetC, hgetC⟩ :=
    list_split_at PoolHandle.nullHandle w.handles dst hdst
  have hy : y.objectPtr = none := by
    rw [← hgetC]
    exact hempty
  obtain ⟨E, z, F, hdE, _, hsetE, hgetE⟩ :=
    list_split_at PoolHandle.nullHandle (w.handles.set dst (getHandle w src)) src
      (by rw [List.length_set]; exact hsrc)
  have hz : z = getHandle w src := by
    rw [← hgetE, list_getD_set_ne PoolHandle.nullHandle w.handles dst src
      (getHandle w src) hne]
    rfl
  obtain ⟨P, q, Q, hdP, _, _, hgetP⟩ :=
    list_split_at PoolHandle.nullHandle w.handles src hsrc
  have hq : q = getHandle w src := by rw [← hgetP]; rfl
  have hqmem : getHandle w src ∈ w.handles := by
    rw [hdP, ← hq]
    exact List.mem_append_right P (List.mem_cons_self q Q)
  have e1 : (boundSlots (w.handles.set dst (getHandle w src))).length
        + y.objectPtr.toList.length
      = (boundSlots w.handles).length
        + (getHandle w src).objectPtr.toList.length := by
    rw [hsetC (getHandle w src)]
    conv_rhs => rw [hdC]
    exact boundSlots_mid_len C D (getHandle w src) y
  have e2 : (boundSlots ((w.handles.set dst (getHandle w src)).set src
          PoolHandle.nullHandle)).length
        + z.objectPtr.toList.length
      = (boundSlots (w.handles.set dst (getHandle w src))).length
        + PoolHandle.nullHandle.objectPtr.toList.length := by
    rw [hsetE PoolHandle.nullHandle]
    conv_rhs => rw [hdE]
    exact boundSlots_mid_len E F PoolHandle.nullHandle z
  have hy0 : y.objectPtr.toList.length = 0 := by rw [hy]; rfl
  have hn0 : (PoolHandle.nullHandle.objectPtr.toList).length = 0 := rfl
  have hz2 : z.objectPtr.toList.length
      = (getHandle w src).objectPtr.toList.length := by rw [hz]
  have hfinal : (boundSlots ((w.handles.set dst (getHandle w src)).set src
        PoolHandle.nullHandle)).length = (boundSlots w.handles).length := by
    omega
  refine ⟨?_, ?_, hmax, ?_, ?_⟩
  · show (boundSlots ((w.handles.set dst (getHandle w src)).set src
        PoolHandle.nullHandle)).length + w.pool.freeList.length
      = w.pool.maxAllocated
    rw [hfinal]
    exact hpart
  · show w.pool.usedCount = _
    rw [hfinal]
    exact hused
  · show w.ctorCount = w.dtorCount + _
    rw [hfinal]
    exact hcount
  · intro h hm
    rcases List.mem_or_eq_of_mem_set hm with hm1 | rfl
    · rcases List.mem_or_eq_of_mem_set hm1 with hm2 | rfl
      · exact hptr h hm2
      · exact hptr _ hqmem
    · rfl

theorem destroyHandleAt_length (w : World) (i : Nat) :
    (destroyHandleAt w i).handles.length = w.handles.length := by
  unfold destroyHandleAt
  split
  · simp [List.length_set]
  · rfl

theorem destroyHandleAt_clears (w : World) (i : Nat) (hi : i < w.handles.length)
    (hw : WInv w) :
    ((destroyHandleAt w i).handles.getD i PoolHandle.nullHandle).objectPtr
      = none := by
  obtain ⟨A, x, B, hd, _, hset, hget⟩ :=
    list_split_at PoolHandle.nullHandle w.handles i hi
  have hxmem : x ∈ w.handles := by
    rw [hd]
    exact List.mem_append_right A (List.mem_cons_self x B)
  have hxc := hw.ptrConsistent x hxmem
  unfold destroyHandleAt
  rw [if_pos hi]
  simp only [getHandle]
  simp only [hget]
  rw [list_getD_set_self PoolHandle.nullHandle w.handles i _ hi]
  rcases x with ⟨xp, xo⟩
  rcases xo with _ | slot
  · cases xp <;> rfl
  · have hxp : xp = true := by simpa using hxc
    subst hxp
    rfl

theorem winv_moveAssign :
    ∀ (w : World) (dst src : Nat), WInv w → WInv (stepOp w (.moveAssignOp dst src)) := by
  intro w dst src hw
  rcases Decidable.eq_or_ne dst src with rfl | hne
  · have hstep : stepOp w (.moveAssignOp dst dst) = w := by
      simp [stepOp]
    rw [hstep]
    exact hw
  · by_cases hd : dst < w.handles.length ∧ src < w.handles.length
    · have hstep : stepOp w (.moveAssignOp dst src) =
          { destroyHandleAt w dst with
            handles := ((destroyHandleAt w dst).handles.set dst
              (getHandle (destroyHandleAt w dst) src)).set src
                PoolHandle.nullHandle } := by
        simp only [stepOp]
        rw [if_neg hne, if_pos hd]
      rw [hstep]
      have hlen := destroyHandleAt_length w dst
      exact winv_transfer (destroyHandleAt w dst) dst src hne
        (by rw [hlen]; exact hd.1) (by rw [hlen]; exact hd.2)
        (destroyHandleAt_clears w dst hd.1 hw)
        (winv_destroyAt w dst hw)
    · have hstep : stepOp w (.moveAssignOp dst src) = w := by
        simp only [stepOp]
        rw [if_neg hne, if_neg hd]
      rw [hstep]
      exact hw

theorem winv_step (w : World) (op : Op) (hw : WInv w) : WInv (stepOp w op) := by
  cases op with
  | emplaceOp c => exact winv_emplace w c hw
  | resetOp i => exact winv_destroyAt w i hw
  | dtorOp i => exact winv_destroyAt w i hw
  | moveCtorOp i => exact winv_moveCtor w i hw
  | moveAssignOp dst src => exact winv_moveAssign w dst src hw

theorem winv_run (ops : List Op) :
    ∀ (w : World), WInv w → WInv (run w ops) := by
  induction ops with
  | nil => intro w hw; exact hw
  | cons op ops ih => intro w hw; exact ih _ (winv_step w op hw)

/-! ### Claim C4: counter invariants at every observation point -/

/-- C4. After any operation sequence on a fresh pool,
`0 ≤ used_count ≤ max_allocated ≤ capacity` and
`used() + available() = capacity()` (every prefix of a sequence is itself a
sequence, so this holds at every observation point). -/
theorem C4_capacity_invariant (N : Nat) (eC : Bool) (ops : List Op) :
    (run (freshWorld N eC) ops).pool.usedCount
        ≤ (run (freshWorld N eC) ops).pool.maxAllocated ∧
    (run (freshWorld N eC) ops).pool.maxAllocated
        ≤ (run (freshWorld N eC) ops).pool.capacity ∧
    (run (freshWorld N eC) ops).pool.size
        + (run (freshWorld N eC) ops).pool.available
      = (run (freshWorld N eC) ops).pool.capacity := by
  obtain ⟨hpart, hused, hmax, _, _⟩ := winv_run ops (freshWorld N eC) (winv_fresh N eC)
  refine ⟨by omega, hmax, ?_⟩
  simp only [PoolState.size, PoolState.available]
  omega

/-! ### Claim C6: monotone high-water mark -/

theorem run_append_one (w : World) (ops : List Op) (op : Op) :
    run w (ops ++ [op]) = stepOp (run w ops) op := by
  simp [run, List.foldl_append]

theorem destroy_handle_pool_maxAlloc (s : PoolState) (h : PoolHandle) :
    (destroy_handle s h).pool.maxAllocated = s.maxAllocated := by
  rcases h with ⟨hp, ho⟩
  rcases hp <;> rcases ho <;> rfl

theorem destroyHandleAt_pool_maxAlloc (w : World) (i : Nat) :
    (destroyHandleAt w i).pool.maxAllocated = w.pool.maxAllocated := by
  unfold destroyHandleAt
  split
  · exact destroy_handle_pool_maxAlloc w.pool (getHandle w i)
  · rfl

theorem emplace_state_maxAlloc (s : PoolState) (c : Bool) :
    s.maxAllocated ≤ (emplace s c).state.maxAllocated := by
  rcases hfl : s.freeList with _ | ⟨f, rest⟩
  · by_cases hge : s.maxAllocated ≥ s.capacity
    · have halloc : allocate_no_lock s = (none, s) := by
        unfold allocate_no_lock
        rw [hfl, if_pos hge]
      rcases hec : s.errCallback
      · have h : emplace s c =
            { result := .exhaustedError, state := s, callbackCodes := [] } := by
          simp [emplace, halloc, hec]
        rw [h]
      · have h : emplace s c =
            { result := .emptyHandle, state := s, callbackCodes := [1] } := by
          simp [emplace, halloc, hec]
        rw [h]
    · have halloc : allocate_no_lock s =
          (some s.maxAllocated, { s with maxAllocated := s.maxAllocated + 1 }) := by
        unfold allocate_no_lock
        rw [hfl, if_neg hge]
      rcases c
      · have h : emplace s false =
            { result := .ctorError,
              state := free_no_lock { s with maxAllocated := s.maxAllocated + 1 }
                s.maxAllocated,
              callbackCodes := [] } := by
          simp [emplace, halloc]
        rw [h]
        simp [free_no_lock]
      · have h : emplace s true =
            { result := .ok s.maxAllocated,
              state := { s with maxAllocated := s.maxAllocated + 1,
                                usedCount := s.usedCount + 1 },
              callbackCodes := [] } := by
          simp [emplace, halloc]
        rw [h]
        simp
  · have halloc : allocate_no_lock s = (some f, { s with freeList := rest }) := by
      unfold allocate_no_lock
      rw [hfl]
    rcases c
    · have h : emplace s false =
          { result := .ctorError,
            state := free_no_lock { s with freeList := rest } f,
            callbackCodes := [] } := by
        simp [emplace, halloc]
      rw [h]
      exact Nat.le_refl s.maxAllocated
    · have h : emplace s true =
          { result := .ok f,
            state := { s with freeList := rest, usedCount := s.usedCount + 1 },
            callbackCodes := [] } := by
        simp [emplace, halloc]
      rw [h]

theorem stepOp_pool_maxAlloc (w : World) (op : Op) :
    w.pool.maxAllocated ≤ (stepOp w op).pool.maxAllocated := by
  cases op with
  | emplaceOp c =>
      have h := emplace_state_maxAlloc w.pool c
      simp only [stepOp]
      split <;> exact h
  | resetOp i =>
      have h := destroyHandleAt_pool_maxAlloc w i
      exact le_of_eq h.symm
  | dtorOp i =>
      have h := destroyHandleAt_pool_maxAlloc w i
      exact le_of_eq h.symm
  | moveCtorOp i =>
      simp only [stepOp]
      split <;> exact Nat.le_refl _
  | moveAssignOp dst src =>
      simp only [stepOp]
      split
      · exact Nat.le_refl _
      · split
        · exact le_of_eq (destroyHandleAt_pool_maxAlloc w dst).symm
        · exact Nat.le_refl _

/-- C6. `max_allocated` never decreases from one state to the next across
any operation sequence (slot teardown pushes onto the free list but never
rewinds the high-water mark, object_pool.hpp:243-253), and it stays bounded
by the capacity. -/
theorem C6_monotone_high_water (N : Nat) (eC : Bool) (ops : List Op) (op : Op) :
    (run (freshWorld N eC) ops).pool.maxAllocated
        ≤ (run (freshWorld N eC) (ops ++ [op])).pool.maxAllocated ∧
    (run (freshWorld N eC) ops).pool.maxAllocated
        ≤ (run (freshWorld N eC) ops).pool.capacity := by
  constructor
  · rw [run_append_one]
    exact stepOp_pool_maxAlloc (run (freshWorld N eC) ops) op
  · exact (winv_run ops _ (winv_fresh N eC)).maxLe

/-! ### Claim C7: teardown runs exactly once per bound object -/

theorem list_getD_append_left {α : Type} (d : α) :
    ∀ (l1 l2 : List α) (i : Nat), i < l1.length →
      (l1 ++ l2).getD i d = l1.getD i d := by
  intro l1
  induction l1 with
  | nil => intro l2 i hi; simp at hi
  | cons a t ih =>
      intro l2 i hi
      cases i with
      | zero => rfl
      | succ n =>
          simp only [List.cons_append, List.getD_cons_succ]
          exact ih l2 n (by simpa using hi)

/-- C7. Handle destruction is the same operation as `reset()` (both run
`destroy_handle`, object_pool.hpp:148-153); resetting an empty handle is a
no-op; a moved-from handle does not re-trigger teardown (destroying the
move source after a move construction changes nothing); and whenever no
handle is left bound after an operation sequence, the number of destructor
invocations equals the number of completed constructions. -/
theorem C7_teardown_exactly_once :
    (∀ (w : World) (i : Nat), stepOp w (.dtorOp i) = stepOp w (.resetOp i)) ∧
    (∀ (w : World) (i : Nat), getHandle w i = PoolHandle.nullHandle →
      stepOp w (.resetOp i) = w) ∧
    (∀ (w : World) (i : Nat), i < w.handles.length →
      stepOp (stepOp w (.moveCtorOp i)) (.dtorOp i) = stepOp w (.moveCtorOp i)) ∧
    (∀ (N : Nat) (eC : Bool) (ops : List Op),
      boundSlots (run (freshWorld N eC) ops).handles = [] →
      (run (freshWorld N eC) ops).ctorCount = (run (freshWorld N eC) ops).dtorCount) := by
  have key : ∀ (w : World) (i : Nat), getHandle w i = PoolHandle.nullHandle →
      stepOp w (.resetOp i) = w := by
    intro w i hnull
    show destroyHandleAt w i = w
    unfold destroyHandleAt
    split
    · rename_i hi
      obtain ⟨A, x, B, hd, _, hset, hget⟩ :=
        list_split_at PoolHandle.nullHandle w.handles i hi
      have hx : x = PoolHandle.nullHandle := by
        rw [← hget]
        exact hnull
      simp only [hnull]
      have hsetnull : w.handles.set i PoolHandle.nullHandle = w.handles := by
        rw [hset PoolHandle.nullHandle, ← hx]
        exact hd.symm
      show ({ w with
          pool := (destroy_handle w.pool PoolHandle.nullHandle).pool,
          handles := w.handles.set i (destroy_handle w.pool PoolHandle.nullHandle).handle,
          dtorCount := w.dtorCount +
            (if (destroy_handle w.pool PoolHandle.nullHandle).dtorRan then 1 else 0) } : World) = w
      rw [show destroy_handle w.pool PoolHandle.nullHandle
          = ⟨w.pool, PoolHandle.nullHandle, false⟩ from rfl]
      simp only [if_false, Bool.false_eq_true]
      rw [hsetnull]
      simp
    · rfl
  refine ⟨fun w i => rfl, key, ?_, ?_⟩
  · intro w i hi
    have hstep : stepOp w (.moveCtorOp i) =
        { w with handles := (w.handles.set i PoolHandle.nullHandle)
            ++ [getHandle w i] } := by
      simp only [stepOp]
      rw [if_pos hi]
    have hnull : getHandle (stepOp w (.moveCtorOp i)) i = PoolHandle.nullHandle := by
      rw [hstep]
      show ((w.handles.set i PoolHandle.nullHandle) ++ [getHandle w i]).getD i
        PoolHandle.nullHandle = PoolHandle.nullHandle
      rw [list_getD_append_left PoolHandle.nullHandle _ _ i
        (by rw [List.length_set]; exact hi)]
      exact list_getD_set_self PoolHandle.nullHandle w.handles i _ hi
    exact key (stepOp w (.moveCtorOp i)) i hnull
  · intro N eC ops hempty
    have hc := (winv_run ops (freshWorld N eC) (winv_fresh N eC)).countEq
    rw [hempty] at hc
    simpa using hc

/-- Witness for C7, at a one-handle world: destruction equals reset,
resetting the moved-from source is a no-op, and a fully-torn-down run has
equal constructor and destructor counts. -/
theorem C7_teardown_exactly_once_w :
    stepOp (freshWorld 1 false) (.dtorOp 0) = stepOp (freshWorld 1 false) (.resetOp 0) ∧
    stepOp (freshWorld 1 false) (.resetOp 0) = freshWorld 1 false ∧
    stepOp (stepOp (stepOp (freshWorld 1 false) (.emplaceOp true)) (.moveCtorOp 0))
        (.dtorOp 0)
      = stepOp (stepOp (freshWorld 1 false) (.emplaceOp true)) (.moveCtorOp 0) ∧
    (run (freshWorld 1 false) [.emplaceOp true, .resetOp 0]).ctorCount
      = (run (freshWorld 1 false) [.emplaceOp true, .resetOp 0]).dtorCount := by
  obtain ⟨h1, h2, h3, h4⟩ := C7_teardown_exactly_once
  exact ⟨h1 (freshWorld 1 false) 0,
         h2 (freshWorld 1 false) 0 (by decide),
         h3 (stepOp (freshWorld 1 false) (.emplaceOp true)) 0 (by decide),
         h4 1 false [.emplaceOp true, .resetOp 0] (by decide)⟩

/-! ### Claim C8: self-move-assignment is a no-op -/

/-- C8. `handles[i] = std::move(handles[i])` hits the `this != &other` guard
(object_pool.hpp:137) and changes nothing: the handle still owns the same
object, no destructor ran, and the used count is unchanged. -/
theorem C8_self_move_noop (w : World) (i : Nat) :
    stepOp w (.moveAssignOp i i) = w ∧
    getHandle (stepOp w (.moveAssignOp i i)) i = getHandle w i ∧
    (stepOp w (.moveAssignOp i i)).pool.usedCount = w.pool.usedCount ∧
    (stepOp w (.moveAssignOp i i)).dtorCount = w.dtorCount := by
  have h : stepOp w (.moveAssignOp i i) = w := by simp [stepOp]
  exact ⟨h, by rw [h], by rw [h], by rw [h]⟩

/-! ### Claim C10: the pool destructor never tears down live objects -/

/-- C10. `~ObjectPool` (object_pool.hpp:326-333) runs no pooled-object
destructor and only releases the arena; in debug builds its assertion
`used_count_ == 0` fails exactly when live (bound) objects remain. -/
theorem C10_pool_dtor_no_object_teardown (N : Nat) (eC : Bool) (ops : List Op) :
    (objectPoolDtor (run (freshWorld N eC) ops).pool).destroyedObjects = [] ∧
    (objectPoolDtor (run (freshWorld N eC) ops).pool).arenaFreed = true ∧
    (boundSlots (run (freshWorld N eC) ops).handles ≠ [] →
      (objectPoolDtor (run (freshWorld N eC) ops).pool).assertLiveCheck = false) ∧
    (boundSlots (run (freshWorld N eC) ops).handles = [] →
      (objectPoolDtor (run (freshWorld N eC) ops).pool).assertLiveCheck = true) := by
  have hused := (winv_run ops (freshWorld N eC) (winv_fresh N eC)).usedEq
  refine ⟨rfl, rfl, ?_, ?_⟩
  · intro hne
    have hlen : 0 < (boundSlots (run (freshWorld N eC) ops).handles).length :=
      List.length_pos.mpr hne
    have hx : (run (freshWorld N eC) ops).pool.usedCount ≠ 0 := by omega
    simp only [objectPoolDtor]
    simpa using hx
  · intro he
    have hx : (run (freshWorld N eC) ops).pool.usedCount = 0 := by
      rw [hused, he]
      rfl
    simp [objectPoolDtor, hx]

/-- Witness for C10: with one live object the debug assertion fails; on the
fresh pool it passes; no pooled-object destructor ever runs. -/
theorem C10_pool_dtor_no_object_teardown_w :
    (objectPoolDtor (run (freshWorld 1 false) [.emplaceOp true]).pool).destroyedObjects
        = [] ∧
    (objectPoolDtor (run (freshWorld 1 false) [.emplaceOp true]).pool).assertLiveCheck
        = false ∧
    (objectPoolDtor (run (freshWorld 1 false) []).pool).assertLiveCheck = true := by
  obtain ⟨h1, _, h3, _⟩ := C10_pool_dtor_no_object_teardown 1 false [.emplaceOp true]
  obtain ⟨_, _, _, g4⟩ := C10_pool_dtor_no_object_teardown 1 false []
  exact ⟨h1, h3 (by decide), g4 (by decide)⟩

end MemOx
